import Mathlib

/-!
Verification of the docswap asynchronous conversion subsystem.

Shallow embedding of `src/async_conversion.py` (job lifecycle, worker,
progress callback, cancellation, cleanup) and
`src/conversion/conversion_manager.py` (capability matrix, engine routing),
together with the engine conversion matrices from
`src/conversion/engines/image_engine.py` and `document_engine.py`.

Modelling conventions:
- time is an `Int` (seconds since some epoch); `datetime.now()` becomes an
  explicit `now : Int` argument; `timedelta(hours=1)` is `3600`;
- the file system is a map `String → Option Nat` from a path to the size of
  the file stored there (`none` = the path does not exist);
- a Python function that may raise is `Except String α` (the `String` is
  `str(e)` of the raised exception);
- the caller-supplied conversion function and the engines' `convert` methods
  are opaque parameters: a behaviour takes the file system and returns the
  (possibly raising) boolean result together with the file system it leaves
  behind.
-/

namespace DocSwap

/-- `ConversionStatus` enum, `src/async_conversion.py` lines 21-26. -/
inductive ConversionStatus where
  | pending
  | processing
  | completed
  | failed
  | cancelled
deriving DecidableEq

/-- The three terminal statuses, as listed in `cancel_job`
(`src/async_conversion.py` line 147). -/
def ConversionStatus.isTerminal : ConversionStatus → Bool
  | .completed => true
  | .failed => true
  | .cancelled => true
  | _ => false

/-- `ConversionJob` dataclass, `src/async_conversion.py` lines 28-46
(the fields the claims are about; `options`, `session_id`, `file_id`,
formats and sizes do not affect the verified transitions). -/
structure ConversionJob where
  job_id : String
  input_path : String
  output_path : String
  status : ConversionStatus
  progress : Int
  message : String
  created_at : Int
  started_at : Option Int
  completed_at : Option Int
  error : Option String
deriving DecidableEq

/-- File system state: path ↦ size of the file there, `none` if absent. -/
def FS : Type := String → Option Nat

/-- `os.path.exists` on the modelled file system. -/
def fsExists (fs : FS) (p : String) : Bool :=
  (fs p).isSome

/-- "`p` holds a non-empty file": exists and has size > 0.  (The code never
checks this; the spec talks about it, so it is defined here to state the
claims.) -/
def fileNonEmpty (fs : FS) (p : String) : Bool :=
  match fs p with
  | some sz => decide (0 < sz)
  | none => false

/-- The first `with self.lock` block of `_process_conversion`
(`src/async_conversion.py` lines 193-197): unconditionally sets
Processing, `started_at`, progress 5 and the starting message. -/
def firstLockBlock (now : Int) (job : ConversionJob) : ConversionJob :=
  { job with
    status := .processing
    started_at := some now
    progress := 5
    message := "Starting conversion..." }

/-- The `progress_callback` closure (`src/async_conversion.py` lines
202-208): raises if the job was cancelled, otherwise stores
`min(max(progress, 0), 95)` and, when a message is given, the message. -/
def progressCallback (job : ConversionJob) (progress : Int)
    (message : Option String) : Except String ConversionJob :=
  if job.status = .cancelled then
    .error "Conversion cancelled"
  else
    .ok { job with
      progress := min (max progress 0) 95
      message := message.getD job.message }

/-- The final `with self.lock` block of `_process_conversion`
(`src/async_conversion.py` lines 224-245), entered when the conversion
function returned `success` without raising and the file system is `fs`:
if the job was cancelled meanwhile nothing changes; if `success` and the
output path exists (existence only — the size is never inspected) the job
becomes Completed with progress 100; otherwise Failed with progress 0 and
the fixed error message. -/
def processReturn (now : Int) (fs : FS) (job : ConversionJob)
    (success : Bool) : ConversionJob :=
  if job.status = .cancelled then job
  else if success && fsExists fs job.output_path then
    { job with
      status := .completed
      progress := 100
      message := "Conversion completed successfully"
      completed_at := some now }
  else
    { job with
      status := .failed
      progress := 0
      message := "Conversion failed"
      error := some "Conversion function returned False or output file not created"
      completed_at := some now }

/-- The `except` handler of `_process_conversion`
(`src/async_conversion.py` lines 247-263), entered when the conversion
function (or a progress callback inside it) raised with message `e`:
if the job was not cancelled it becomes Failed with progress 0,
`error = str(e)`, and the partial output file is removed; a cancelled
job and the file system are left untouched. -/
def processExcept (now : Int) (fs : FS) (job : ConversionJob)
    (e : String) : ConversionJob × FS :=
  if job.status = .cancelled then (job, fs)
  else
    ({ job with
        status := .failed
        progress := 0
        message := "Conversion failed: " ++ e
        error := some e
        completed_at := some now },
      fun p => if p = job.output_path then none else fs p)

/-- Claim C1 as stated: after a non-raising return of the conversion
function on a Processing job, the job is Completed with progress 100 iff
the function succeeded AND the output file exists and is non-empty, and in
every other returning case it is Failed with progress 0 and an error
recorded. -/
def claimC1 : Prop :=
  ∀ (now : Int) (fs : FS) (job : ConversionJob) (success : Bool),
    job.status = .processing →
    (((processReturn now fs job success).status = .completed ∧
        (processReturn now fs job success).progress = 100) ↔
      (success = true ∧ fileNonEmpty fs job.output_path = true)) ∧
    (¬ (success = true ∧ fileNonEmpty fs job.output_path = true) →
      (processReturn now fs job success).status = .failed ∧
      (processReturn now fs job success).progress = 0 ∧
      (processReturn now fs job success).error ≠ none)

/-- A sample in-flight job used by the concrete counterexamples. -/
def sampleJob : ConversionJob :=
  { job_id := "job-1"
    input_path := "in.pdf"
    output_path := "out.png"
    status := .processing
    progress := 20
    message := "Processing file..."
    created_at := 0
    started_at := some 0
    completed_at := none
    error := none }

/-- A file system holding an empty (0-byte) file at `out.png`. -/
def emptyOutputFS : FS :=
  fun p => if p = "out.png" then some 0 else none

/-- Claim C6 as stated: when the conversion function raises with message
`e`, a not-yet-cancelled job becomes Failed with a non-empty error string
and the partial output file is deleted, while a cancelled job is left
untouched with no error recorded. -/
def claimC6 : Prop :=
  ∀ (now : Int) (fs : FS) (job : ConversionJob) (e : String),
    (job.status ≠ .cancelled →
      (processExcept now fs job e).1.status = .failed ∧
      (∃ msg, (processExcept now fs job e).1.error = some msg ∧ msg ≠ "") ∧
      (processExcept now fs job e).2 job.output_path = none) ∧
    (job.status = .cancelled →
      (processExcept now fs job e).1 = job)

/-! ### Registry operations (`AsyncConversionManager`) -/

/-- Association-list lookup, modelling a Python `dict` access /
`dict.get`. -/
def listLookup {α : Type} (m : List (String × α)) (k : String) : Option α :=
  (m.find? fun p => decide (p.1 = k)).map Prod.snd

/-- `self.jobs.get(job_id)`: the registry `self.jobs` is modelled as an
association list from `job_id` to `ConversionJob`. -/
def lookupJob (jobs : List (String × ConversionJob)) (job_id : String) :
    Option ConversionJob :=
  listLookup jobs job_id

/-- The mutation `cancel_job` performs on a non-terminal job
(`src/async_conversion.py` lines 155-157). -/
def cancelJobUpdate (now : Int) (job : ConversionJob) : ConversionJob :=
  { job with
    status := .cancelled
    message := "Conversion cancelled by user"
    completed_at := some now }

/-- `cancel_job` (`src/async_conversion.py` lines 140-160): returns
`false` leaving the registry untouched when the job is unknown or its
status is in `[COMPLETED, FAILED, CANCELLED]`; otherwise flags the job
Cancelled (with message and `completed_at`) and returns `true`.
(The `future.cancel()` side effect is modelled in the transition system
below, `cancelResult`.) -/
def cancel_job (now : Int) (jobs : List (String × ConversionJob))
    (job_id : String) : Bool × List (String × ConversionJob) :=
  match lookupJob jobs job_id with
  | none => (false, jobs)
  | some job =>
    if job.status.isTerminal then (false, jobs)
    else
      (true, jobs.map fun p =>
        if p.1 = job_id then (p.1, cancelJobUpdate now job) else p)

/-- One scan of `_cleanup_expired_jobs` (`src/async_conversion.py` lines
296-311): `cutoff_time = now - 1 hour`; a job is removed exactly when its
`completed_at` is set and earlier than the cutoff (`job.completed_at and
job.completed_at < cutoff_time`). -/
def cleanupExpiredScan (now : Int) (jobs : List (String × ConversionJob)) :
    List (String × ConversionJob) :=
  jobs.filter fun p =>
    match p.2.completed_at with
    | some t => decide (¬ t < now - 3600)
    | none => true

/-! ### The worker / cancellation transition system

`_process_conversion` runs on a pool thread concurrently with `cancel_job`
calls from the API thread; the lock is held only inside the individual
blocks, so the interleaving of those blocks is what the step relation
captures.  One job is tracked together with the phase its worker is in. -/

/-- Where the worker of the tracked job stands. -/
inductive WorkerPhase where
  | notStarted
  | running
  | inBody
  | finished
  | neverRan
deriving DecidableEq

/-- One job plus its worker phase.  `notStarted`: the future is queued;
`running`: the pool thread has entered `_process_conversion` but not yet
taken the lock; `inBody`: the first lock block ran (status Processing) and
the conversion function is executing; `finished`: `_process_conversion`
returned; `neverRan`: `future.cancel()` succeeded before the thread
started, the body never executes. -/
structure SysState where
  job : ConversionJob
  worker : WorkerPhase
deriving DecidableEq

/-- Effect of one `cancel_job` call on the tracked job
(`src/async_conversion.py` lines 140-160): no-op on a terminal job;
otherwise the job is flagged Cancelled and, when the worker has not
started yet, `future.cancel()` succeeds and the body will never run. -/
def cancelResult (now : Int) (s : SysState) : SysState :=
  if s.job.status.isTerminal then s
  else
    { job := cancelJobUpdate now s.job
      worker := if s.worker = .notStarted then .neverRan else s.worker }

/-- Interleaved small steps of the worker executing `_process_conversion`
and of concurrent `cancel_job` calls.  The conversion function's behaviour
is unconstrained: it may report any progress, return any boolean leaving
any file system, or raise at any point. -/
inductive Step (now : Int) : SysState → SysState → Prop where
  | start (s : SysState) (h : s.worker = .notStarted) :
      Step now s { job := s.job, worker := .running }
  | enterBody (s : SysState) (h : s.worker = .running) :
      Step now s { job := firstLockBlock now s.job, worker := .inBody }
  | report (s : SysState) (p : Int) (msg : Option String) (j : ConversionJob)
      (h : s.worker = .inBody)
      (hcb : progressCallback s.job p msg = Except.ok j) :
      Step now s { job := j, worker := .inBody }
  | finish (s : SysState) (success : Bool) (fs : FS) (h : s.worker = .inBody) :
      Step now s { job := processReturn now fs s.job success, worker := .finished }
  | raiseExc (s : SysState) (e : String) (fs : FS) (h : s.worker = .inBody) :
      Step now s { job := (processExcept now fs s.job e).1, worker := .finished }
  | cancel (s : SysState) :
      Step now s (cancelResult now s)

/-- Initial state after `submit_conversion`: a Pending job whose future is
queued. -/
def isInit (s : SysState) : Prop :=
  s.job.status = .pending ∧ s.worker = .notStarted

/-- Reachability under the interleaving semantics. -/
def Reachable (now : Int) (s0 s : SysState) : Prop :=
  Relation.ReflTransGen (Step now) s0 s

/-- Phase/status consistency maintained by every step. -/
def Inv (s : SysState) : Prop :=
  (s.worker = .notStarted → s.job.status = .pending) ∧
  (s.worker = .running → s.job.status = .pending ∨ s.job.status = .cancelled) ∧
  (s.worker = .inBody → s.job.status = .processing ∨ s.job.status = .cancelled) ∧
  (s.worker = .neverRan → s.job.status = .cancelled) ∧
  (s.worker = .finished → s.job.status.isTerminal = true)

/-- Claim C4 as stated: along any execution from a freshly submitted job,
once the status is terminal no step changes it. -/
def claimC4 : Prop :=
  ∀ (now : Int) (s0 s t : SysState), isInit s0 → Reachable now s0 s →
    Step now s t → s.job.status.isTerminal = true →
    t.job.status = s.job.status

/-- Claim C5 as stated: along any execution from a freshly submitted job,
a step that starts and ends with status Processing never decreases the
progress field. -/
def claimC5 : Prop :=
  ∀ (now : Int) (s0 s t : SysState), isInit s0 → Reachable now s0 s →
    Step now s t → s.job.status = .processing →
    t.job.status = .processing →
    s.job.progress ≤ t.job.progress

/-- A freshly submitted job, as built by `submit_conversion`
(`src/async_conversion.py` lines 105-120). -/
def freshJob : ConversionJob :=
  { job_id := "job-1"
    input_path := "in.pdf"
    output_path := "out.png"
    status := .pending
    progress := 0
    message := "Conversion queued"
    created_at := 0
    started_at := none
    completed_at := none
    error := none }

/-! ### ConversionManager (router), `src/conversion/conversion_manager.py` -/

/-- ASCII lowercasing of one character, as Python `str.lower` acts on the
format names occurring in this code base. -/
def lowerChar (c : Char) : Char :=
  if 'A' ≤ c ∧ c ≤ 'Z' then Char.ofNat (c.toNat + 32) else c

/-- Python `str.lower()` on ASCII strings. -/
def pyLower (s : String) : String :=
  String.mk (s.data.map lowerChar)

/-- `ConversionManager.can_convert` (`conversion_manager.py` lines 80-86):
lowercases both formats, then checks `input_format in self.global_matrix
and output_format in self.global_matrix[input_format]`. -/
def can_convert (global_matrix : List (String × List String))
    (input_format output_format : String) : Bool :=
  match listLookup global_matrix (pyLower input_format) with
  | some outs => decide (pyLower output_format ∈ outs)
  | none => false

/-- `get_conversion_matrix` (`conversion_manager.py` lines 76-78) returns
`self.global_matrix.copy()`, i.e. an equal map. -/
def get_conversion_matrix (global_matrix : List (String × List String)) :
    List (String × List String) :=
  global_matrix

/-- A conversion engine as the router sees it: its display `name`
attribute and its `convert` method, which receives the file system and
either raises (`Except.error` = `ConversionError` or any exception) or
returns a boolean, leaving a new file system behind. -/
structure Engine where
  name : String
  convert : FS → Except String Bool × FS

/-- The dict returned by `ConversionManager.convert` (the keys that occur;
`input_format`/`output_format` echoes are omitted as they never vary from
the lowercased arguments). -/
structure ConvertResult where
  success : Bool
  engine : Option String
  error : Option String
  output_path : Option String
  file_size : Option Nat
  attempted_engines : Option (List String)
  supported_outputs : Option (List String)
deriving DecidableEq

/-- The engine trial loop of `ConversionManager.convert`
(`conversion_manager.py` lines 170-202): candidates are tried in order;
a raised error records `last_error` and moves on; a `False` return (or a
`True` return with no file at `output_path`) moves on without touching
`last_error`; the first engine returning `True` with an existing output
file short-circuits with a success record carrying its name; exhaustion
yields the structured failure with the attempted engine names. -/
def tryEngines (output_path : String) (attempted : List String) :
    List Engine → FS → Option String → ConvertResult × FS
  | [], fs, last_error =>
    ({ success := false
       engine := none
       error := some ("All engines failed. Last error: " ++ last_error.getD "None")
       output_path := none
       file_size := none
       attempted_engines := some attempted
       supported_outputs := none }, fs)
  | eng :: rest, fs, last_error =>
    match eng.convert fs with
    | (Except.ok true, fs2) =>
      match fs2 output_path with
      | some sz =>
        ({ success := true
           engine := some eng.name
           error := none
           output_path := some output_path
           file_size := some sz
           attempted_engines := none
           supported_outputs := none }, fs2)
      | none => tryEngines output_path attempted rest fs2 last_error
    | (Except.ok false, fs2) => tryEngines output_path attempted rest fs2 last_error
    | (Except.error e, fs2) => tryEngines output_path attempted rest fs2 (some e)

/-- The state a `ConversionManager` holds after `__init__`:
`global_matrix`, `format_to_engine` (key `"in_out"` ↦ engine names in
registration order) and `engines` (registry name ↦ engine). -/
structure Router where
  global_matrix : List (String × List String)
  format_to_engine : List (String × List String)
  engines : List (String × Engine)

/-- `ConversionManager.convert` (`conversion_manager.py` lines 131-209):
lowercases the formats, fails fast when the pair is unsupported, the
input file is missing, or no engine claims the pair, and otherwise runs
the trial loop over `format_to_engine[key]` resolved through
`self.engines`. -/
def routerConvert (r : Router) (input_path output_path : String)
    (input_format output_format : String) (fs : FS) : ConvertResult × FS :=
  let inF := pyLower input_format
  let outF := pyLower output_format
  if can_convert r.global_matrix inF outF = false then
    ({ success := false
       engine := none
       error := some ("Conversion from " ++ inF ++ " to " ++ outF ++ " not supported")
       output_path := none
       file_size := none
       attempted_engines := none
       supported_outputs := some ((listLookup r.global_matrix inF).getD []) }, fs)
  else if fsExists fs input_path = false then
    ({ success := false
       engine := none
       error := some ("Input file not found: " ++ input_path)
       output_path := none
       file_size := none
       attempted_engines := none
       supported_outputs := none }, fs)
  else
    let names := (listLookup r.format_to_engine (inF ++ "_" ++ outF)).getD []
    if names.isEmpty then
      ({ success := false
         engine := none
         error := some ("No engine available for " ++ inF ++ " to " ++ outF)
         output_path := none
         file_size := none
         attempted_engines := none
         supported_outputs := none }, fs)
    else
      tryEngines output_path names
        (names.filterMap fun n => listLookup r.engines n) fs none

/-- Claim C2 as stated: a `success=true` result implies the output path
holds a non-empty file afterwards. -/
def claimC2 : Prop :=
  ∀ (r : Router) (input_path output_path input_format output_format : String)
    (fs : FS),
    (routerConvert r input_path output_path input_format output_format fs).1.success
      = true →
    fileNonEmpty
      (routerConvert r input_path output_path input_format output_format fs).2
      output_path = true

/-! ### The global conversion matrix built from the engines
(`_build_global_conversion_matrix`, `conversion_manager.py` lines 42-60,
over the matrices of `ImageEngine` and `DocumentEngine`). -/

/-- `image_formats`, `image_engine.py` line 40. -/
def imageFormats : List String :=
  ["jpg", "jpeg", "png", "tiff", "tif", "bmp", "gif", "webp"]

/-- `ImageEngine._initialize_formats` (`image_engine.py` lines 37-62),
parameterised by the two library-availability flags: `pdf` (if readable)
converts to all image formats; each image format converts to all image
formats and, when `img2pdf` is importable, to `pdf`. -/
def imageEngineMatrix (pdf2image_available img2pdf_available : Bool) :
    List (String × List String) :=
  ((if pdf2image_available then ["pdf"] else []) ++ imageFormats).map fun f =>
    if f = "pdf" then (f, imageFormats)
    else (f, imageFormats ++ (if img2pdf_available then ["pdf"] else []))

/-- `DocumentEngine._build_conversion_matrix` (`document_engine.py` lines
91-122), parameterised by the library-availability flags. -/
def documentEngineMatrix (pdf_a docx_a xlsx_a reportlab_a : Bool) :
    List (String × List String) :=
  (if pdf_a then [("pdf", ["txt"] ++ if docx_a then ["docx"] else [])] else []) ++
  (if docx_a then [("docx", ["txt", "html"])] else []) ++
  (if xlsx_a then [("xlsx", ["csv", "txt", "html"] ++ if pdf_a then ["pdf"] else [])] else []) ++
  [("txt", ["html"] ++ (if docx_a then ["docx"] else []) ++ (if reportlab_a then ["pdf"] else []))] ++
  [("html", ["txt"] ++ if docx_a then ["docx"] else [])] ++
  [("csv", ["txt", "html"] ++ if xlsx_a then ["xlsx"] else [])]

/-- `global_matrix[input] gets output appended if missing`
(`conversion_manager.py` lines 52-54; the key was ensured before). -/
def matrixAppendOutput (m : List (String × List String)) (inF outF : String) :
    List (String × List String) :=
  m.map fun p =>
    if p.1 = inF then (p.1, if outF ∈ p.2 then p.2 else p.2 ++ [outF]) else p

/-- `format_to_engine[key]` gets the engine name appended, creating the
key first when absent (`conversion_manager.py` lines 56-60; the append is
unconditional). -/
def fteAdd (m : List (String × List String)) (key engName : String) :
    List (String × List String) :=
  let m1 := if (listLookup m key).isSome then m else m ++ [(key, [])]
  m1.map fun p => if p.1 = key then (p.1, p.2 ++ [engName]) else p

/-- One row (`input_format, output_formats`) of one engine's matrix folded
into the accumulated `(global_matrix, format_to_engine)` pair
(`conversion_manager.py` lines 48-60). -/
def buildStepRow (engName : String)
    (acc : List (String × List String) × List (String × List String))
    (row : String × List String) :
    List (String × List String) × List (String × List String) :=
  let g0 := if (listLookup acc.1 row.1).isSome then acc.1 else acc.1 ++ [(row.1, [])]
  row.2.foldl
    (fun a outF =>
      (matrixAppendOutput a.1 row.1 outF, fteAdd a.2 (row.1 ++ "_" ++ outF) engName))
    (g0, acc.2)

/-- `_build_global_conversion_matrix` over a list of
(registry name, conversion matrix) in registration order. -/
def buildGlobalMatrix
    (engines : List (String × List (String × List String))) :
    List (String × List String) × List (String × List String) :=
  engines.foldl (fun acc e => e.2.foldl (buildStepRow e.1) acc) ([], [])

/-- The router's `global_matrix` for a given set of availability flags:
`ImageEngine` is registered first, `DocumentEngine` second
(`conversion_manager.py` lines 26-40). -/
def builtGlobalMatrix (p2i i2p pdf_a docx_a xlsx_a reportlab_a : Bool) :
    List (String × List String) :=
  (buildGlobalMatrix
    [("image", imageEngineMatrix p2i i2p),
     ("document", documentEngineMatrix pdf_a docx_a xlsx_a reportlab_a)]).1

/-- Claim C8 as stated: whatever libraries are available,
`can_convert(x,y)` agrees with `y ∈ get_conversion_matrix()[x]` for all
`(x, y)` (a missing key contributing no members). -/
def claimC8 : Prop :=
  ∀ (p2i i2p pdf_a docx_a xlsx_a reportlab_a : Bool) (x y : String),
    can_convert (builtGlobalMatrix p2i i2p pdf_a docx_a xlsx_a reportlab_a) x y
      = true ↔
    y ∈ (listLookup
          (get_conversion_matrix
            (builtGlobalMatrix p2i i2p pdf_a docx_a xlsx_a reportlab_a)) x).getD []

/-! ### Concrete instances used to settle the claims on explicit inputs -/

/-- An engine that accepts the conversion but writes a 0-byte file at
`out.png`. -/
def emptyWriterEngine : Engine :=
  { name := "ImageEngine"
    convert := fun fs => (Except.ok true, fun p => if p = "out.png" then some 0 else fs p) }

/-- An engine that accepts the conversion and writes a 10-byte file at
`out.png`. -/
def okWriterEngine : Engine :=
  { name := "ImageEngine"
    convert := fun fs => (Except.ok true, fun p => if p = "out.png" then some 10 else fs p) }

/-- An engine whose `convert` always raises. -/
def failEngineA : Engine :=
  { name := "EngineA"
    convert := fun fs => (Except.error "engine A is broken", fs) }

/-- An engine that succeeds and writes a 10-byte file at `out.png`. -/
def okEngineB : Engine :=
  { name := "EngineB"
    convert := fun fs => (Except.ok true, fun p => if p = "out.png" then some 10 else fs p) }

/-- A router with a single pdf→png engine that leaves an empty file. -/
def emptyWriterRouter : Router :=
  { global_matrix := [("pdf", ["png"])]
    format_to_engine := [("pdf_png", ["image"])]
    engines := [("image", emptyWriterEngine)] }

/-- A router with a single pdf→png engine that leaves a non-empty file. -/
def okWriterRouter : Router :=
  { global_matrix := [("pdf", ["png"])]
    format_to_engine := [("pdf_png", ["image"])]
    engines := [("image", okWriterEngine)] }

/-- A router where two engines claim pdf→png: the first-registered one
always fails, the second succeeds. -/
def fallbackRouter : Router :=
  { global_matrix := [("pdf", ["png"])]
    format_to_engine := [("pdf_png", ["a", "b"])]
    engines := [("a", failEngineA), ("b", okEngineB)] }

/-- A file system holding only the 100-byte input file `in.pdf`. -/
def inputOnlyFS : FS :=
  fun p => if p = "in.pdf" then some 100 else none

/-- Submission state of `freshJob`: Pending, future queued. -/
def stateInit : SysState :=
  { job := freshJob, worker := .notStarted }

/-- The pool thread has dequeued the job and entered
`_process_conversion`, but not yet taken the lock. -/
def stateRunning : SysState :=
  { job := freshJob, worker := .running }

/-- `cancel_job` arrives while the worker is between dequeueing and its
first lock block: the job is flagged Cancelled but the worker keeps
going. -/
def stateCancelledRunning : SysState :=
  cancelResult 0 stateRunning

/-- The worker's first lock block has run: status Processing. -/
def stateInBody : SysState :=
  { job := firstLockBlock 0 freshJob, worker := .inBody }

/-- The conversion function reported progress 50. -/
def jobAt50 : ConversionJob :=
  { firstLockBlock 0 freshJob with progress := 50 }

/-- State after the progress-50 report. -/
def stateAt50 : SysState :=
  { job := jobAt50, worker := .inBody }

/-- The conversion function then reports progress 10. -/
def jobAt10 : ConversionJob :=
  { jobAt50 with progress := 10 }

/-- A job cancelled before its worker ever started. -/
def stateCancelledNeverRan : SysState :=
  { job := cancelJobUpdate 0 freshJob, worker := .neverRan }

/-- A one-job registry holding `freshJob` under its id. -/
def sampleRegistry : List (String × ConversionJob) :=
  [("job-1", freshJob)]

/-! ## Theorems -/

/-- Claim C1 fails on the code: with `success = true` and a 0-byte file at
the output path, `_process_conversion` marks the job Completed with
progress 100 (`os.path.exists` is the only check, the size is never
inspected), while the claim demands Failed for an empty output file. -/
theorem C1_counterexample : ¬ claimC1 := by
  intro h
  have h1 := h 0 emptyOutputFS sampleJob true rfl
  have h2 := (h1.1.mp ⟨rfl, rfl⟩).2
  exact absurd h2 (by decide)

/-- Claim C1 amended: on a non-raising return over a Processing job, the
worker marks the job Completed with progress 100 iff the function returned
success AND a file exists at `output_path` (emptiness is not checked); in
every other returning case the job is marked Failed with progress 0 and
the descriptive error string recorded. -/
theorem C1_completed_iff_output_exists (now : Int) (fs : FS)
    (job : ConversionJob) (success : Bool) (h : job.status = .processing) :
    (((processReturn now fs job success).status = .completed ∧
        (processReturn now fs job success).progress = 100) ↔
      (success = true ∧ fsExists fs job.output_path = true)) ∧
    (¬ (success = true ∧ fsExists fs job.output_path = true) →
      (processReturn now fs job success).status = .failed ∧
      (processReturn now fs job success).progress = 0 ∧
      (processReturn now fs job success).error =
        some "Conversion function returned False or output file not created") := by
  have hnc : ¬ job.status = ConversionStatus.cancelled := by
    rw [h]; intro hc; cases hc
  unfold processReturn
  rw [if_neg hnc]
  by_cases hb : success && fsExists fs job.output_path
  · rw [if_pos hb]
    rw [Bool.and_eq_true] at hb
    exact ⟨⟨fun _ => hb, fun _ => ⟨rfl, rfl⟩⟩,
      fun hcon => absurd hb hcon⟩
  · rw [if_neg hb]
    rw [Bool.and_eq_true] at hb
    refine ⟨⟨fun hcon => absurd hcon.1 (by intro hx; cases hx), fun hsf => absurd hsf hb⟩,
      fun _ => ⟨rfl, rfl, rfl⟩⟩

/-- Witness for C1's amended theorem at a concrete Processing job. -/
theorem C1_witness :
    (((processReturn 0 emptyOutputFS sampleJob true).status = .completed ∧
        (processReturn 0 emptyOutputFS sampleJob true).progress = 100) ↔
      (true = true ∧ fsExists emptyOutputFS sampleJob.output_path = true)) ∧
    (¬ (true = true ∧ fsExists emptyOutputFS sampleJob.output_path = true) →
      (processReturn 0 emptyOutputFS sampleJob true).status = .failed ∧
      (processReturn 0 emptyOutputFS sampleJob true).progress = 0 ∧
      (processReturn 0 emptyOutputFS sampleJob true).error =
        some "Conversion function returned False or output file not created") :=
  C1_completed_iff_output_exists 0 emptyOutputFS sampleJob true rfl

/-- Claim C6 fails on the code: an exception whose `str(e)` is empty (for
example a bare `raise Exception()`) leaves `error = ""` on the Failed job,
so the recorded error string is not non-empty as the claim requires. -/
theorem C6_counterexample : ¬ claimC6 := by
  intro h
  obtain ⟨-, ⟨msg, hmsg, hne⟩, -⟩ := (h 0 emptyOutputFS sampleJob "").1 (by decide)
  have : some "" = some msg := hmsg
  cases this
  exact hne rfl

/-- Claim C6 amended: when the conversion function raises with message
`e` on a job not flagged Cancelled, the job is marked Failed with
progress 0, `error` set to exactly `e` (empty when the exception carries
no message, while the `message` field is always non-empty), and the
partial output file is deleted; a Cancelled job and the file system are
left untouched. -/
theorem C6_exception_handling (now : Int) (fs : FS) (job : ConversionJob)
    (e : String) :
    (job.status ≠ .cancelled →
      (processExcept now fs job e).1.status = .failed ∧
      (processExcept now fs job e).1.progress = 0 ∧
      (processExcept now fs job e).1.error = some e ∧
      (processExcept now fs job e).1.message = "Conversion failed: " ++ e ∧
      (processExcept now fs job e).2 job.output_path = none) ∧
    (job.status = .cancelled →
      (processExcept now fs job e).1 = job ∧
      (processExcept now fs job e).2 = fs) := by
  unfold processExcept
  by_cases hc : job.status = .cancelled
  · rw [if_pos hc]
    exact ⟨fun hn => absurd hc hn, fun _ => ⟨rfl, rfl⟩⟩
  · rw [if_neg hc]
    refine ⟨fun _ => ⟨rfl, rfl, rfl, rfl, ?_⟩, fun hcc => absurd hcc hc⟩
    show (if job.output_path = job.output_path then none else fs job.output_path) = none
    rw [if_pos rfl]

/-- Witness for C6's amended theorem: a raising conversion on a concrete
Processing job. -/
theorem C6_witness :
    (processExcept 0 emptyOutputFS sampleJob "boom").1.status = .failed ∧
    (processExcept 0 emptyOutputFS sampleJob "boom").1.progress = 0 ∧
    (processExcept 0 emptyOutputFS sampleJob "boom").1.error = some "boom" ∧
    (processExcept 0 emptyOutputFS sampleJob "boom").1.message =
      "Conversion failed: " ++ "boom" ∧
    (processExcept 0 emptyOutputFS sampleJob "boom").2 sampleJob.output_path = none :=
  (C6_exception_handling 0 emptyOutputFS sampleJob "boom").1 (by decide)

/-- Replacing under key `k` is what the registry's in-place mutation looks
like through `listLookup`. -/
theorem listLookup_map_update {α : Type} (m : List (String × α)) (k : String)
    (u : α) (h : (listLookup m k).isSome = true) :
    listLookup (m.map fun p => if p.1 = k then (p.1, u) else p) k = some u := by
  induction m with
  | nil => simp [listLookup] at h
  | cons hd tl ih =>
    by_cases hh : hd.1 = k
    · simp [listLookup, List.find?_cons, hh]
    · have h' : (listLookup tl k).isSome = true := by
        simpa [listLookup, List.find?_cons, hh] using h
      simpa [listLookup, List.find?_cons, hh] using ih h'

/-- On a known non-terminal job, `cancel_job` answers `true` and the
registry afterwards holds the Cancelled update under the same id. -/
theorem cancel_job_nonterminal (now : Int)
    (jobs : List (String × ConversionJob)) (job_id : String)
    (job : ConversionJob) (hj : lookupJob jobs job_id = some job)
    (ht : job.status.isTerminal = false) :
    (cancel_job now jobs job_id).1 = true ∧
    lookupJob (cancel_job now jobs job_id).2 job_id =
      some (cancelJobUpdate now job) := by
  unfold cancel_job
  rw [hj]
  dsimp only
  rw [if_neg (by rw [ht]; exact fun hx => by cases hx)]
  refine ⟨rfl, ?_⟩
  exact listLookup_map_update jobs job_id (cancelJobUpdate now job)
    (by rw [show listLookup jobs job_id = some job from hj]; rfl)

/-- Claim C7 (confirmed): `cancel_job` returns `false` and leaves the
registry (hence every recorded field of every job) unchanged when the job
is unknown or already terminal; on a Pending or Processing job it returns
`true` and the job's status becomes Cancelled. -/
theorem C7_cancel_job_spec (now : Int) (jobs : List (String × ConversionJob))
    (job_id : String) :
    (lookupJob jobs job_id = none → cancel_job now jobs job_id = (false, jobs)) ∧
    (∀ job, lookupJob jobs job_id = some job → job.status.isTerminal = true →
      cancel_job now jobs job_id = (false, jobs)) ∧
    (∀ job, lookupJob jobs job_id = some job → job.status.isTerminal = false →
      (cancel_job now jobs job_id).1 = true ∧
      lookupJob (cancel_job now jobs job_id).2 job_id =
        some (cancelJobUpdate now job) ∧
      (cancelJobUpdate now job).status = .cancelled) := by
  refine ⟨fun h => ?_, fun job hj ht => ?_, fun job hj ht => ?_⟩
  · unfold cancel_job
    rw [h]
  · unfold cancel_job
    rw [hj]
    dsimp only
    rw [if_pos ht]
  · obtain ⟨h1, h2⟩ := cancel_job_nonterminal now jobs job_id job hj ht
    exact ⟨h1, h2, rfl⟩

/-- Witness for C7 on a one-job registry holding a Pending job. -/
theorem C7_witness :
    (cancel_job 5 sampleRegistry "job-1").1 = true ∧
    lookupJob (cancel_job 5 sampleRegistry "job-1").2 "job-1" =
      some (cancelJobUpdate 5 freshJob) ∧
    (cancelJobUpdate 5 freshJob).status = .cancelled :=
  (C7_cancel_job_spec 5 sampleRegistry "job-1").2.2 freshJob rfl rfl

/-- Claim C9 (confirmed): one cleanup scan at time `now` keeps an entry iff
its `completed_at` is unset or not older than the one-hour horizon
`now - 3600`; in particular a job lacking `completed_at` (still Pending or
Processing) is never removed, regardless of its age. -/
theorem C9_cleanup_exact (now : Int) (jobs : List (String × ConversionJob))
    (p : String × ConversionJob) (hp : p ∈ jobs) :
    (p ∈ cleanupExpiredScan now jobs ↔
      (p.2.completed_at = none ∨
        ∃ t, p.2.completed_at = some t ∧ ¬ t < now - 3600)) ∧
    (p.2.completed_at = none → p ∈ cleanupExpiredScan now jobs) := by
  have hmem : p ∈ cleanupExpiredScan now jobs ↔
      (p.2.completed_at = none ∨
        ∃ t, p.2.completed_at = some t ∧ ¬ t < now - 3600) := by
    unfold cleanupExpiredScan
    rw [List.mem_filter]
    constructor
    · rintro ⟨-, hkeep⟩
      cases hca : p.2.completed_at with
      | none => exact Or.inl rfl
      | some t =>
        refine Or.inr ⟨t, rfl, ?_⟩
        rw [hca] at hkeep
        exact of_decide_eq_true hkeep
    · intro h
      refine ⟨hp, ?_⟩
      rcases h with hnone | ⟨t, ht, hlt⟩
      · rw [hnone]
      · rw [ht]
        exact decide_eq_true hlt
  exact ⟨hmem, fun hnone => hmem.mpr (Or.inl hnone)⟩

/-- Witness for C9: the Pending `freshJob` (no `completed_at`) survives a
scan arbitrarily far in the future. -/
theorem C9_witness :
    ("job-1", freshJob) ∈ cleanupExpiredScan 1000000 sampleRegistry :=
  (C9_cleanup_exact 1000000 sampleRegistry ("job-1", freshJob)
    (by simp [sampleRegistry])).2 rfl

/-- Claim C10 (confirmed): cancelling a non-terminal job (even a Pending
one whose conversion never ran) records `completed_at = now`, so once a
scan time `s` satisfies `now < s - 3600` the cancelled job is removed by
the cleanup scan wherever it is stored. -/
theorem C10_cancel_sets_completed_at (now : Int)
    (jobs : List (String × ConversionJob)) (job_id : String)
    (job : ConversionJob) (hj : lookupJob jobs job_id = some job)
    (ht : job.status.isTerminal = false) :
    (cancel_job now jobs job_id).1 = true ∧
    (cancelJobUpdate now job).completed_at = some now ∧
    lookupJob (cancel_job now jobs job_id).2 job_id =
      some (cancelJobUpdate now job) ∧
    (∀ (scan : Int) (jobs2 : List (String × ConversionJob)),
      now < scan - 3600 →
      (job_id, cancelJobUpdate now job) ∉ cleanupExpiredScan scan jobs2) := by
  obtain ⟨h1, h2⟩ := cancel_job_nonterminal now jobs job_id job hj ht
  refine ⟨h1, rfl, h2, fun scan jobs2 hs hmem => ?_⟩
  rw [cleanupExpiredScan, List.mem_filter] at hmem
  have hpred := hmem.2
  have hca : (cancelJobUpdate now job).completed_at = some now := rfl
  rw [hca] at hpred
  exact of_decide_eq_true hpred (by omega)

/-- Witness for C10: cancelling the Pending `freshJob` at time 5. -/
theorem C10_witness :
    (cancel_job 5 sampleRegistry "job-1").1 = true ∧
    (cancelJobUpdate 5 freshJob).completed_at = some 5 ∧
    lookupJob (cancel_job 5 sampleRegistry "job-1").2 "job-1" =
      some (cancelJobUpdate 5 freshJob) ∧
    (∀ (scan : Int) (jobs2 : List (String × ConversionJob)),
      5 < scan - 3600 →
      ("job-1", cancelJobUpdate 5 freshJob) ∉ cleanupExpiredScan scan jobs2) :=
  C10_cancel_sets_completed_at 5 sampleRegistry "job-1" freshJob rfl rfl

/-- A `False` return moves to the next candidate, `last_error`
untouched. -/
theorem tryEngines_skip_false (out : String) (att : List String) (eng : Engine)
    (rest : List Engine) (fs fs2 : FS) (le : Option String)
    (h : eng.convert fs = (Except.ok false, fs2)) :
    tryEngines out att (eng :: rest) fs le = tryEngines out att rest fs2 le := by
  simp only [tryEngines, h]

/-- A raised error is recorded as `last_error` and the next candidate is
tried. -/
theorem tryEngines_skip_raise (out : String) (att : List String) (eng : Engine)
    (rest : List Engine) (fs fs2 : FS) (le : Option String) (e : String)
    (h : eng.convert fs = (Except.error e, fs2)) :
    tryEngines out att (eng :: rest) fs le =
      tryEngines out att rest fs2 (some e) := by
  simp only [tryEngines, h]

/-- A `True` return that left no output file also moves on. -/
theorem tryEngines_skip_nofile (out : String) (att : List String) (eng : Engine)
    (rest : List Engine) (fs fs2 : FS) (le : Option String)
    (h : eng.convert fs = (Except.ok true, fs2)) (hfs : fs2 out = none) :
    tryEngines out att (eng :: rest) fs le = tryEngines out att rest fs2 le := by
  simp only [tryEngines, h, hfs]

/-- The first engine that returns `True` and leaves an output file
short-circuits the loop with a success record carrying its name. -/
theorem tryEngines_head_success (out : String) (att : List String)
    (eng : Engine) (rest : List Engine) (fs fs2 : FS) (le : Option String)
    (sz : Nat) (h : eng.convert fs = (Except.ok true, fs2))
    (hfs : fs2 out = some sz) :
    tryEngines out att (eng :: rest) fs le =
      ({ success := true
         engine := some eng.name
         error := none
         output_path := some out
         file_size := some sz
         attempted_engines := none
         supported_outputs := none }, fs2) := by
  simp only [tryEngines, h, hfs]

/-- A successful trial loop leaves a file at the output path. -/
theorem tryEngines_success_exists (out : String) (att : List String) :
    ∀ (engs : List Engine) (fs : FS) (le : Option String),
      (tryEngines out att engs fs le).1.success = true →
      ((tryEngines out att engs fs le).2 out).isSome = true := by
  intro engs
  induction engs with
  | nil =>
    intro fs le h
    simp [tryEngines] at h
  | cons eng rest ih =>
    intro fs le h
    rcases hconv : eng.convert fs with ⟨res, fs2⟩
    cases res with
    | ok b =>
      cases b with
      | false =>
        rw [tryEngines_skip_false out att eng rest fs fs2 le hconv] at h ⊢
        exact ih fs2 le h
      | true =>
        cases hfs : fs2 out with
        | none =>
          rw [tryEngines_skip_nofile out att eng rest fs fs2 le hconv hfs] at h ⊢
          exact ih fs2 le h
        | some sz =>
          rw [tryEngines_head_success out att eng rest fs fs2 le sz hconv hfs]
          dsimp only
          rw [hfs]
          rfl
    | error e =>
      rw [tryEngines_skip_raise out att eng rest fs fs2 le e hconv] at h ⊢
      exact ih fs2 (some e) h

/-- Claim C2 fails on the code: a single engine that returns `True` after
writing a 0-byte output file makes `convert` report `success=true`
(`conversion_manager.py` line 179 checks only `os.path.exists`), while the
claim requires the file to be non-empty. -/
theorem C2_counterexample : ¬ claimC2 := by
  intro h
  have := h emptyWriterRouter "in.pdf" "out.png" "pdf" "png" inputOnlyFS rfl
  exact absurd this (by decide)

/-- Claim C2 amended: `ConversionRouter.convert` returns `success=true`
only if a file (possibly empty) exists at `output_path` after the call
returns. -/
theorem C2_success_implies_output_exists (r : Router)
    (input_path output_path input_format output_format : String) (fs : FS)
    (h : (routerConvert r input_path output_path input_format output_format
            fs).1.success = true) :
    (((routerConvert r input_path output_path input_format output_format
        fs).2) output_path).isSome = true := by
  simp only [routerConvert] at h ⊢
  split_ifs at h ⊢ with h1 h2 h3
  exact tryEngines_success_exists output_path _ _ fs none h

/-- Witness for C2's amended theorem: a successful conversion through a
concrete router. -/
theorem C2_witness :
    (((routerConvert okWriterRouter "in.pdf" "out.png" "pdf" "png"
        inputOnlyFS).2) "out.png").isSome = true :=
  C2_success_implies_output_exists okWriterRouter "in.pdf" "out.png" "pdf"
    "png" inputOnlyFS rfl

/-- Claim C3 (confirmed): the trial loop walks the candidates in
registration order; a raised error or a `False` return (or a success that
left no file) is non-fatal and the next candidate is tried; the first
engine that succeeds and leaves an output file is returned with its name;
and concretely, when the pair's candidate list is `[A-name, B-name]` with
`A` always raising and `B` succeeding, `convert` returns success with
engine `B`. -/
theorem C3_fallback_registration_order :
    (∀ (out : String) (att : List String) (eng : Engine) (rest : List Engine)
       (fs fs2 : FS) (le : Option String),
       eng.convert fs = (Except.ok false, fs2) →
       tryEngines out att (eng :: rest) fs le =
         tryEngines out att rest fs2 le) ∧
    (∀ (out : String) (att : List String) (eng : Engine) (rest : List Engine)
       (fs fs2 : FS) (le : Option String) (e : String),
       eng.convert fs = (Except.error e, fs2) →
       tryEngines out att (eng :: rest) fs le =
         tryEngines out att rest fs2 (some e)) ∧
    (∀ (out : String) (att : List String) (eng : Engine) (rest : List Engine)
       (fs fs2 : FS) (le : Option String),
       eng.convert fs = (Except.ok true, fs2) → fs2 out = none →
       tryEngines out att (eng :: rest) fs le =
         tryEngines out att rest fs2 le) ∧
    (∀ (out : String) (att : List String) (eng : Engine) (rest : List Engine)
       (fs fs2 : FS) (le : Option String) (sz : Nat),
       eng.convert fs = (Except.ok true, fs2) → fs2 out = some sz →
       (tryEngines out att (eng :: rest) fs le).1.success = true ∧
       (tryEngines out att (eng :: rest) fs le).1.engine = some eng.name) ∧
    (∀ (r : Router) (input_path out input_format output_format : String)
       (fs fsA fsB : FS) (nA nB eA : String) (A B : Engine) (sz : Nat),
       can_convert r.global_matrix (pyLower input_format)
         (pyLower output_format) = true →
       fsExists fs input_path = true →
       (listLookup r.format_to_engine
         (pyLower input_format ++ "_" ++ pyLower output_format)).getD []
         = [nA, nB] →
       listLookup r.engines nA = some A →
       listLookup r.engines nB = some B →
       A.convert fs = (Except.error eA, fsA) →
       B.convert fsA = (Except.ok true, fsB) →
       fsB out = some sz →
       (routerConvert r input_path out input_format output_format fs).1.success
         = true ∧
       (routerConvert r input_path out input_format output_format fs).1.engine
         = some B.name) := by
  refine ⟨tryEngines_skip_false, tryEngines_skip_raise, tryEngines_skip_nofile,
    ?_, ?_⟩
  · intro out att eng rest fs fs2 le sz h hfs
    rw [tryEngines_head_success out att eng rest fs fs2 le sz h hfs]
    exact ⟨rfl, rfl⟩
  · intro r input_path out input_format output_format fs fsA fsB nA nB eA A B
      sz hcc hin hnames hna hnb hA hB hout
    have hni : ¬ can_convert r.global_matrix (pyLower input_format)
        (pyLower output_format) = false := by
      rw [hcc]; exact fun hx => by cases hx
    have hfi : ¬ fsExists fs input_path = false := by
      rw [hin]; exact fun hx => by cases hx
    simp only [routerConvert, hnames]
    rw [if_neg hni, if_neg hfi,
      if_neg (show ¬ ([nA, nB].isEmpty = true) from fun hx => by cases hx)]
    rw [show List.filterMap (fun n => listLookup r.engines n) [nA, nB] = [A, B]
      by simp [List.filterMap_cons, hna, hnb]]
    rw [tryEngines_skip_raise out [nA, nB] A [B] fs fsA none eA hA]
    rw [tryEngines_head_success out [nA, nB] B [] fsA fsB (some eA) sz hB hout]
    exact ⟨rfl, rfl⟩

/-- Witness for C3: through `fallbackRouter`, where first-registered
engine A always raises, the conversion succeeds with engine B's name. -/
theorem C3_witness :
    (routerConvert fallbackRouter "in.pdf" "out.png" "pdf" "png"
        inputOnlyFS).1.success = true ∧
    (routerConvert fallbackRouter "in.pdf" "out.png" "pdf" "png"
        inputOnlyFS).1.engine = some okEngineB.name :=
  C3_fallback_registration_order.2.2.2.2 fallbackRouter "in.pdf" "out.png"
    "pdf" "png" inputOnlyFS inputOnlyFS
    (fun p => if p = "out.png" then some 10 else inputOnlyFS p)
    "a" "b" "engine A is broken" failEngineA okEngineB 10
    (by decide) (by decide) rfl rfl rfl rfl rfl rfl

/-- What a non-raising progress report does: status and the other
lifecycle fields are untouched, the clamp is stored, and the report could
not have come from a cancelled job. -/
theorem progressCallback_ok (job : ConversionJob) (p : Int)
    (msg : Option String) (j : ConversionJob)
    (h : progressCallback job p msg = Except.ok j) :
    j.status = job.status ∧ job.status ≠ .cancelled ∧
    j.progress = min (max p 0) 95 ∧ j.message = msg.getD job.message := by
  unfold progressCallback at h
  by_cases hc : job.status = .cancelled
  · rw [if_pos hc] at h
    cases h
  · rw [if_neg hc] at h
    injection h with h'
    subst h'
    exact ⟨rfl, hc, rfl, rfl⟩

/-- Whatever the conversion function did, the job `_process_conversion`
leaves behind on a normal return has a terminal status. -/
theorem processReturn_status_isTerminal (now : Int) (fs : FS)
    (job : ConversionJob) (success : Bool) :
    (processReturn now fs job success).status.isTerminal = true := by
  unfold processReturn
  split_ifs with h1 h2
  · rw [h1]; rfl
  · rfl
  · rfl

/-- A cancelled job is left untouched by the final lock block. -/
theorem processReturn_of_cancelled (now : Int) (fs : FS)
    (job : ConversionJob) (success : Bool) (h : job.status = .cancelled) :
    processReturn now fs job success = job := by
  unfold processReturn
  rw [if_pos h]

/-- The exception handler also leaves a terminal status behind. -/
theorem processExcept_status_isTerminal (now : Int) (fs : FS)
    (job : ConversionJob) (e : String) :
    (processExcept now fs job e).1.status.isTerminal = true := by
  unfold processExcept
  split_ifs with h1
  · rw [h1]; rfl
  · rfl

/-- A cancelled job and the file system are left untouched by the
exception handler. -/
theorem processExcept_of_cancelled (now : Int) (fs : FS)
    (job : ConversionJob) (e : String) (h : job.status = .cancelled) :
    processExcept now fs job e = (job, fs) := by
  unfold processExcept
  rw [if_pos h]

/-- `cancel_job` on a terminal job changes nothing. -/
theorem cancelResult_of_terminal (now : Int) (s : SysState)
    (h : s.job.status.isTerminal = true) : cancelResult now s = s := by
  unfold cancelResult
  rw [if_pos h]

/-- The initial state satisfies the phase/status invariant. -/
theorem inv_init (s : SysState) (h : isInit s) : Inv s := by
  obtain ⟨hs, hw⟩ := h
  refine ⟨fun _ => hs, fun hr => ?_, fun hb => ?_, fun hn => ?_, fun hf => ?_⟩
  · rw [hw] at hr; cases hr
  · rw [hw] at hb; cases hb
  · rw [hw] at hn; cases hn
  · rw [hw] at hf; cases hf

/-- Every step preserves the phase/status invariant. -/
theorem inv_step (now : Int) (s t : SysState) (hInv : Inv s)
    (hst : Step now s t) : Inv t := by
  obtain ⟨i1, i2, i3, i4, i5⟩ := hInv
  unfold Inv
  cases hst with
  | start h =>
    refine ⟨?_, ?_, ?_, ?_, ?_⟩
    · intro hx; exact nomatch hx
    · intro _; exact Or.inl (i1 h)
    · intro hx; exact nomatch hx
    · intro hx; exact nomatch hx
    · intro hx; exact nomatch hx
  | enterBody h =>
    refine ⟨?_, ?_, ?_, ?_, ?_⟩
    · intro hx; exact nomatch hx
    · intro hx; exact nomatch hx
    · intro _; exact Or.inl rfl
    · intro hx; exact nomatch hx
    · intro hx; exact nomatch hx
  | report p msg j h hcb =>
    obtain ⟨hstat, hnc, -, -⟩ := progressCallback_ok s.job p msg j hcb
    have hproc : s.job.status = .processing := by
      rcases i3 h with h' | h'
      · exact h'
      · exact absurd h' hnc
    refine ⟨?_, ?_, ?_, ?_, ?_⟩
    · intro hx; exact nomatch hx
    · intro hx; exact nomatch hx
    · intro _; exact Or.inl (hstat.trans hproc)
    · intro hx; exact nomatch hx
    · intro hx; exact nomatch hx
  | finish success fs h =>
    refine ⟨?_, ?_, ?_, ?_, ?_⟩
    · intro hx; exact nomatch hx
    · intro hx; exact nomatch hx
    · intro hx; exact nomatch hx
    · intro hx; exact nomatch hx
    · intro _; exact processReturn_status_isTerminal now fs s.job success
  | raiseExc e fs h =>
    refine ⟨?_, ?_, ?_, ?_, ?_⟩
    · intro hx; exact nomatch hx
    · intro hx; exact nomatch hx
    · intro hx; exact nomatch hx
    · intro hx; exact nomatch hx
    · intro _; exact processExcept_status_isTerminal now fs s.job e
  | cancel =>
    by_cases hterm : s.job.status.isTerminal = true
    · rw [cancelResult_of_terminal now s hterm]
      exact ⟨i1, i2, i3, i4, i5⟩
    · unfold cancelResult
      rw [if_neg hterm]
      by_cases hw : s.worker = .notStarted
      · rw [if_pos hw]
        refine ⟨?_, ?_, ?_, ?_, ?_⟩
        · intro hx; exact nomatch hx
        · intro hx; exact nomatch hx
        · intro hx; exact nomatch hx
        · intro _; exact rfl
        · intro hx; exact nomatch hx
      · rw [if_neg hw]
        refine ⟨?_, ?_, ?_, ?_, ?_⟩
        · intro hx; exact absurd hx hw
        · intro _; exact Or.inr rfl
        · intro _; exact Or.inr rfl
        · intro _; exact rfl
        · intro _; exact rfl

/-- The invariant holds in every reachable state. -/
theorem inv_reachable (now : Int) (s0 s : SysState) (h0 : isInit s0)
    (hr : Reachable now s0 s) : Inv s := by
  unfold Reachable at hr
  induction hr with
  | refl => exact inv_init s0 h0
  | tail hab hbc ih => exact inv_step now _ _ ih hbc

/-- Under the invariant, a single step preserves Completed and Failed
outright, and preserves Cancelled unless the worker is exactly between
dequeueing the job and recording Processing. -/
theorem step_preserve (now : Int) (s t : SysState) (hInv : Inv s)
    (hst : Step now s t) :
    (s.job.status = .completed → t.job.status = .completed) ∧
    (s.job.status = .failed → t.job.status = .failed) ∧
    (s.job.status = .cancelled → s.worker ≠ .running →
      t.job.status = .cancelled) := by
  obtain ⟨i1, i2, i3, i4, i5⟩ := hInv
  cases hst with
  | start h => exact ⟨fun hc => hc, fun hc => hc, fun hc _ => hc⟩
  | enterBody h =>
    refine ⟨fun hc => ?_, fun hc => ?_, fun _ hnr => absurd h hnr⟩
    · rcases i2 h with h' | h' <;> rw [hc] at h' <;> cases h'
    · rcases i2 h with h' | h' <;> rw [hc] at h' <;> cases h'
  | report p msg j h hcb =>
    obtain ⟨hstat, hnc, -, -⟩ := progressCallback_ok s.job p msg j hcb
    exact ⟨fun hc => hstat.trans hc, fun hc => hstat.trans hc,
      fun hc _ => absurd hc hnc⟩
  | finish success fs h =>
    refine ⟨fun hc => ?_, fun hc => ?_, fun hc _ => ?_⟩
    · rcases i3 h with h' | h' <;> rw [hc] at h' <;> cases h'
    · rcases i3 h with h' | h' <;> rw [hc] at h' <;> cases h'
    · show (processReturn now fs s.job success).status = .cancelled
      rw [processReturn_of_cancelled now fs s.job success hc]
      exact hc
  | raiseExc e fs h =>
    refine ⟨fun hc => ?_, fun hc => ?_, fun hc _ => ?_⟩
    · rcases i3 h with h' | h' <;> rw [hc] at h' <;> cases h'
    · rcases i3 h with h' | h' <;> rw [hc] at h' <;> cases h'
    · show (processExcept now fs s.job e).1.status = .cancelled
      rw [processExcept_of_cancelled now fs s.job e hc]
      exact hc
  | cancel =>
    refine ⟨fun hc => ?_, fun hc => ?_, fun hc _ => ?_⟩
    · show (cancelResult now s).job.status = .completed
      rw [cancelResult_of_terminal now s (by rw [hc]; rfl)]
      exact hc
    · show (cancelResult now s).job.status = .failed
      rw [cancelResult_of_terminal now s (by rw [hc]; rfl)]
      exact hc
    · show (cancelResult now s).job.status = .cancelled
      rw [cancelResult_of_terminal now s (by rw [hc]; rfl)]
      exact hc

/-- From a job cancelled before its worker started, no step changes
anything at all. -/
theorem step_frozen (now : Int) (s t : SysState)
    (hc : s.job.status = .cancelled) (hw : s.worker = .neverRan)
    (hst : Step now s t) : t = s := by
  cases hst with
  | start h => rw [hw] at h; cases h
  | enterBody h => rw [hw] at h; cases h
  | report p msg j h hcb => rw [hw] at h; cases h
  | finish success fs h => rw [hw] at h; cases h
  | raiseExc e fs h => rw [hw] at h; cases h
  | cancel => exact cancelResult_of_terminal now s (by rw [hc]; rfl)

/-- Claim C4 fails on the code: dequeue the job (`Step.start`), let
`cancel_job` flag it Cancelled while the worker is still before its first
lock block (`future.cancel()` returns False, the job is terminal), then
let the worker take the lock — `_process_conversion` lines 193-196 set the
Cancelled job back to Processing, leaving the terminal state. -/
theorem C4_counterexample : ¬ claimC4 := by
  intro h
  have hreach : Reachable 0 stateInit stateCancelledRunning :=
    Relation.ReflTransGen.tail
      (Relation.ReflTransGen.tail Relation.ReflTransGen.refl
        (Step.start stateInit rfl))
      (Step.cancel stateRunning)
  have hstep : Step 0 stateCancelledRunning
      { job := firstLockBlock 0 stateCancelledRunning.job, worker := .inBody } :=
    Step.enterBody stateCancelledRunning rfl
  have := h 0 stateInit stateCancelledRunning _ ⟨rfl, rfl⟩ hreach hstep
    (by decide)
  exact absurd this (by decide)

/-- Claim C4 amended: along any execution from a fresh submission,
Completed and Failed are never left; Cancelled is left only by the
worker's transition into its first lock block, which is possible only when
the cancellation landed after the worker dequeued the job and before it
recorded Processing; and a job flagged Cancelled before its worker started
(so that `future.cancel()` succeeded) keeps status Cancelled forever. -/
theorem C4_terminal_preservation :
    (∀ (now : Int) (s0 s t : SysState), isInit s0 → Reachable now s0 s →
      Step now s t →
      ((s.job.status = .completed → t.job.status = .completed) ∧
       (s.job.status = .failed → t.job.status = .failed) ∧
       (s.job.status = .cancelled → s.worker ≠ .running →
         t.job.status = .cancelled))) ∧
    (∀ (now : Int) (s t : SysState), s.job.status = .cancelled →
      s.worker = .neverRan → Relation.ReflTransGen (Step now) s t →
      t.job.status = .cancelled ∧ t.worker = .neverRan) := by
  constructor
  · intro now s0 s t h0 hr hst
    exact step_preserve now s t (inv_reachable now s0 s h0 hr) hst
  · intro now s t hc hw hr
    induction hr with
    | refl => exact ⟨hc, hw⟩
    | tail hab hbc ih =>
      have hfr := step_frozen now _ _ ih.1 ih.2 hbc
      rw [hfr]
      exact ih

/-- Witness for C4's amended theorem, at a job cancelled before its
worker started. -/
theorem C4_witness :
    stateCancelledNeverRan.job.status = .cancelled ∧
    stateCancelledNeverRan.worker = .neverRan :=
  C4_terminal_preservation.2 0 stateCancelledNeverRan stateCancelledNeverRan
    rfl rfl Relation.ReflTransGen.refl

/-- Claim C5 fails on the code: `progress_callback` stores
`min(max(progress, 0), 95)` without comparing to the previous value, so a
conversion function that reports 50 and then 10 drives a Processing job's
progress from 50 down to 10. -/
theorem C5_counterexample : ¬ claimC5 := by
  intro h
  have hreach : Reachable 0 stateInit stateAt50 :=
    Relation.ReflTransGen.tail
      (Relation.ReflTransGen.tail
        (Relation.ReflTransGen.tail Relation.ReflTransGen.refl
          (Step.start stateInit rfl))
        (Step.enterBody stateRunning rfl))
      (Step.report stateInBody 50 none jobAt50 rfl rfl)
  have hstep : Step 0 stateAt50 { job := jobAt10, worker := .inBody } :=
    Step.report stateAt50 10 none jobAt10 rfl rfl
  have := h 0 stateInit stateAt50 _ ⟨rfl, rfl⟩ hreach hstep rfl rfl
  exact absurd this (by decide)

/-- Claim C5 amended: each report through the injected callback stores
exactly `min(max(progress, 0), 95)` (and the message), leaving the status
alone; the stored progress is non-decreasing across exactly those reports
whose clamped value is at least the current progress — monotonicity itself
is not enforced; and a report on a cancelled job raises instead of
storing. -/
theorem C5_progress_clamp :
    (∀ (job : ConversionJob) (p : Int) (msg : Option String)
       (j : ConversionJob), progressCallback job p msg = Except.ok j →
       j.progress = min (max p 0) 95 ∧ j.status = job.status ∧
       j.message = msg.getD job.message) ∧
    (∀ (job : ConversionJob) (p : Int) (msg : Option String)
       (j : ConversionJob), progressCallback job p msg = Except.ok j →
       job.progress ≤ min (max p 0) 95 → job.progress ≤ j.progress) ∧
    (∀ (job : ConversionJob) (p : Int) (msg : Option String),
       job.status = .cancelled →
       progressCallback job p msg = Except.error "Conversion cancelled") := by
  refine ⟨fun job p msg j h => ?_, fun job p msg j h hle => ?_,
    fun job p msg hc => ?_⟩
  · obtain ⟨h1, -, h2, h3⟩ := progressCallback_ok job p msg j h
    exact ⟨h2, h1, h3⟩
  · obtain ⟨-, -, h2, -⟩ := progressCallback_ok job p msg j h
    rw [h2]
    exact hle
  · unfold progressCallback
    rw [if_pos hc]

/-- Witness for C5's amended theorem: a report of 50 on a job at
progress 20. -/
theorem C5_witness :
    sampleJob.progress ≤
      ({ sampleJob with progress := 50 } : ConversionJob).progress :=
  C5_progress_clamp.2.1 sampleJob 50 none { sampleJob with progress := 50 }
    rfl (by decide)

set_option maxRecDepth 20000 in
/-- Claim C8 fails on the code: `can_convert` lowercases its arguments
but `get_conversion_matrix()[x]` is a plain dict access, so with every
library available `can_convert("PDF", "png")` is true while `"png" ∈
get_conversion_matrix()["PDF"]` does not hold (the matrix keys are all
lowercase and `"PDF"` is not among them). -/
theorem C8_counterexample : ¬ claimC8 := by
  intro h
  have := (h true true true true true true "PDF" "png").mp (by decide)
  exact absurd this (by decide)

/-- Claim C8 amended: `can_convert(x,y)` agrees with
`y ∈ get_conversion_matrix()[x]` (a missing key contributing no members)
for all already-lowercase `x` and `y` — and on any matrix, not just the
built one. -/
theorem C8_lowercase_agreement (m : List (String × List String))
    (x y : String) (hx : pyLower x = x) (hy : pyLower y = y) :
    (can_convert m x y = true ↔
      y ∈ (listLookup (get_conversion_matrix m) x).getD []) := by
  unfold can_convert get_conversion_matrix
  rw [hx, hy]
  cases h : listLookup m x with
  | none => simp
  | some outs => simp

/-- Witness for C8's amended theorem on the matrix built with every
library available. -/
theorem C8_witness :
    can_convert (builtGlobalMatrix true true true true true true) "pdf" "png"
      = true ↔
    "png" ∈ (listLookup
      (get_conversion_matrix (builtGlobalMatrix true true true true true true))
      "pdf").getD [] :=
  C8_lowercase_agreement (builtGlobalMatrix true true true true true true)
    "pdf" "png" (by decide) (by decide)

end DocSwap
